import Mathlib

/-!
Verification of the consent-gated posture event service
(`src/backend/app.py`) against its specification.

The service state is two SQLite tables: `events(id, ts, label)` and
`settings(key, value)`.  We model the event table as a list of events in
insertion order (the monotone surrogate `id` is the list position) and the
settings table as an association list keyed by strings with at most one
row per key, exactly the invariant of `key TEXT PRIMARY KEY`.

Each Python function touching the database becomes a pure Lean function
from the database state (plus the current time, which Python reads via
`int(time.time())`) to its result and/or the updated state.  SQLite's
`REAL` division in `aggregate_summary` is modelled over `ℚ`; every value
the claims mention is exactly representable, so no rounding is lost.
-/

/-- One row of the `events` table: `ts INTEGER NOT NULL`, `label TEXT NOT NULL`.
The surrogate `id` is the position in the list. -/
structure Event where
  ts : Int
  label : String
deriving DecidableEq, Repr

/-- The `settings` table: association list `key ↦ value`, at most one row
per key (maintained by every operation below, mirroring `key TEXT PRIMARY KEY`). -/
abbrev Settings := List (String × String)

/-- The whole database file: the two tables of `init_db`. -/
structure DB where
  events : List Event
  settings : Settings
deriving DecidableEq, Repr

/-- `SELECT value FROM settings WHERE key=?` — first (only) row for the key. -/
def settingsGet (s : Settings) (k : String) : Option String :=
  (s.find? (fun p => decide (p.1 = k))).map Prod.snd

/-- `INSERT INTO settings(key, value) VALUES(?, ?) ON CONFLICT(key) DO UPDATE
SET value=excluded.value` — update the existing row, else append a new one. -/
def settingsUpsert (s : Settings) (k v : String) : Settings :=
  if (settingsGet s k).isSome then
    s.map (fun p => if p.1 = k then (k, v) else p)
  else s ++ [(k, v)]

/-- `init_db`: `CREATE TABLE IF NOT EXISTS` is a no-op on the modelled state;
`INSERT OR IGNORE INTO settings(key, value) VALUES('consent','false')`
inserts only when the key is absent. -/
def init_db (db : DB) : DB :=
  if (settingsGet db.settings "consent").isSome then db
  else { db with settings := db.settings ++ [("consent", "false")] }

/-- `get_consent`: read the `consent` row; `(row[0] == 'true') if row else False`. -/
def get_consent (db : DB) : Bool :=
  match settingsGet db.settings "consent" with
  | some v => decide (v = "true")
  | none => false

/-- `set_consent`: upsert `consent ↦ "true"/"false"`. -/
def set_consent (value : Bool) (db : DB) : DB :=
  { db with settings := settingsUpsert db.settings "consent" (if value then "true" else "false") }

/-- `store_event_if_allowed(label, allow)`: return unchanged unless `allow`
and `label in ("good", "slouched")`; otherwise `INSERT INTO events(ts, label)
VALUES(int(time.time()), label)`. -/
def store_event_if_allowed (label : String) (allow : Bool) (now : Int) (db : DB) : DB :=
  if allow = false then db
  else if ¬ (label = "good" ∨ label = "slouched") then db
  else { db with events := db.events ++ [⟨now, label⟩] }

/-- `since = now - 7*24*3600 if period == "weekly" else now - 24*3600`. -/
def sinceOf (period : String) (now : Int) : Int :=
  if period = "weekly" then now - 7 * 24 * 3600 else now - 24 * 3600

/-- The rows of `SELECT ... FROM events WHERE ts >= since`. -/
def windowEvents (period : String) (now : Int) (db : DB) : List Event :=
  db.events.filter (fun e => decide (sinceOf period now ≤ e.ts))

/-- `aggregate_summary(period)`: `SELECT label, COUNT(*) ... GROUP BY label`
builds `counts`, `total = sum(counts.values())`; returns `(0.0, 0)` when
`total == 0`, else `(counts.get("good", 0) / total, total)`. -/
def aggregate_summary (period : String) (now : Int) (db : DB) : ℚ × Nat :=
  let windowed := windowEvents period now db
  let labels := (windowed.map (fun e => e.label)).dedup
  let counts := labels.map
    (fun l => (l, (windowed.filter (fun e => decide (e.label = l))).length))
  let total := (counts.map Prod.snd).sum
  if total = 0 then (0, 0)
  else
    ((((counts.find? (fun p => decide (p.1 = "good"))).map Prod.snd).getD 0 : ℚ) / (total : ℚ),
      total)

/-- `POST /api/track` handler: consent gate, then label gate, then store;
returns the `stored` flag and the new database state. -/
def track (label : String) (now : Int) (db : DB) : Bool × DB :=
  let consent := get_consent db
  if consent = false then (false, db)
  else if ¬ (label = "good" ∨ label = "slouched") then (false, db)
  else (true, store_event_if_allowed label true now db)

/-- `GET /api/summary` handler body: `(0.0, 0)` without consent, else
`aggregate_summary period`. -/
def summary (period : String) (now : Int) (db : DB) : ℚ × Nat :=
  let consent := get_consent db
  if consent = false then (0, 0)
  else aggregate_summary period now db

/-- The FastAPI query validation `pattern="^(daily|weekly)$"` on `period`. -/
def periodPatternOk (period : String) : Bool :=
  decide (period = "daily") || decide (period = "weekly")

/-! ### Helper lemmas about the store's GROUP BY aggregation -/

/-- Counting a label in the projected label list equals the length of the
event-level filter for that label. -/
lemma count_label (ws : List Event) (l : String) :
    (ws.map (fun e => e.label)).count l
      = (ws.filter (fun e => decide (e.label = l))).length := by
  induction ws with
  | nil => simp
  | cons e t ih =>
    by_cases h : e.label = l
    · simp [List.count_cons, List.filter_cons, h, ih]
    · simp [List.count_cons, List.filter_cons, h, ih, Ne.symm h]

/-- Looking a key up in an association list built by tagging each element of
`L` with `f` yields `f x` exactly when `x ∈ L`. -/
lemma find_map_pair (L : List String) (f : String → Nat) (x : String) :
    ((L.map (fun l => (l, f l))).find? (fun p => decide (p.1 = x))).map Prod.snd
      = if x ∈ L then some (f x) else none := by
  induction L with
  | nil => simp
  | cons a t ih =>
    by_cases h : a = x
    · subst h
      simp [List.find?_cons_of_pos]
    · rw [List.map_cons, List.find?_cons_of_neg _ (by simp [h]), ih]
      simp [List.mem_cons, Ne.symm h]

/-- The `GROUP BY` counts of `aggregate_summary` sum to the number of rows in
the window: `sum(counts.values())` is the windowed row count. -/
lemma aggregate_total_eq (p : String) (now : Int) (db : DB) :
    ((((windowEvents p now db).map (fun e => e.label)).dedup.map
        (fun l => (l, ((windowEvents p now db).filter (fun e => decide (e.label = l))).length))).map
          Prod.snd).sum
      = (windowEvents p now db).length := by
  set ws := windowEvents p now db with hws
  rw [List.map_map]
  have h1 : ((ws.map (fun e => e.label)).dedup.map
      (Prod.snd ∘ fun l => (l, (ws.filter (fun e => decide (e.label = l))).length)))
      = ((ws.map (fun e => e.label)).dedup.map (fun l => (ws.map (fun e => e.label)).count l)) := by
    refine List.map_congr_left ?_
    intro l _
    simp [count_label]
  rw [h1, List.sum_map_count_dedup_eq_length, List.length_map]

/-- The `counts.get("good", 0)` lookup of `aggregate_summary` is the number of
windowed events labeled `good` (also when no such event exists and the lookup
falls back to `0`). -/
lemma aggregate_good_eq (p : String) (now : Int) (db : DB) :
    (((((windowEvents p now db).map (fun e => e.label)).dedup.map
        (fun l => (l, ((windowEvents p now db).filter (fun e => decide (e.label = l))).length))).find?
          (fun pr => decide (pr.1 = "good"))).map Prod.snd).getD 0
      = ((windowEvents p now db).filter (fun e => decide (e.label = "good"))).length := by
  set ws := windowEvents p now db with hws
  rw [find_map_pair]
  by_cases h : "good" ∈ (ws.map (fun e => e.label)).dedup
  · simp [h]
  · rw [if_neg h]
    have : ws.filter (fun e => decide (e.label = "good")) = [] := by
      rw [List.filter_eq_nil_iff]
      intro e he
      simp only [decide_eq_true_eq]
      intro hlabel
      exact h (List.mem_dedup.mpr (List.mem_map.mpr ⟨e, he, hlabel⟩))
    simp [this]

/-- Closed form of `aggregate_summary`: the pair is `(0, 0)` when the window is
empty, else `(good-count / window-size, window-size)` where the denominator
counts every windowed row whatever its label. -/
lemma aggregate_summary_eq (p : String) (now : Int) (db : DB) :
    aggregate_summary p now db =
      if (windowEvents p now db).length = 0 then (0, 0)
      else ((((windowEvents p now db).filter (fun e => decide (e.label = "good"))).length : ℚ)
              / ((windowEvents p now db).length : ℚ),
            (windowEvents p now db).length) := by
  unfold aggregate_summary
  simp only [aggregate_total_eq p now db, aggregate_good_eq p now db]

/-- The `total` component returned by `aggregate_summary` is always the number
of events in the window. -/
lemma aggregate_snd (p : String) (now : Int) (db : DB) :
    (aggregate_summary p now db).2 = (windowEvents p now db).length := by
  rw [aggregate_summary_eq]
  by_cases h : (windowEvents p now db).length = 0 <;> simp [h]

/-! ### Helper lemmas about the settings table -/

/-- Updating the row for `k` in place (the `DO UPDATE` arm) makes `k` resolve
to the new value, provided a row for `k` existed. -/
lemma find_map_update (s : Settings) (k v : String)
    (h : (s.find? (fun p => decide (p.1 = k))).isSome) :
    (s.map (fun p => if p.1 = k then (k, v) else p)).find? (fun p => decide (p.1 = k))
      = some (k, v) := by
  induction s with
  | nil => simp at h
  | cons a t ih =>
    by_cases ha : a.1 = k
    · simp only [List.map_cons, ha, if_pos]
      exact List.find?_cons_of_pos _ (by simp)
    · rw [List.map_cons, if_neg ha, List.find?_cons_of_neg _ (by simp [ha])]
      refine ih ?_
      rw [List.find?_cons_of_neg _ (by simp [ha])] at h
      exact h

/-- Appending a fresh row for `k` (the plain `INSERT` arm) makes `k` resolve to
the new value, provided no row for `k` existed. -/
lemma find_append_single (s : Settings) (k v : String)
    (h : s.find? (fun p => decide (p.1 = k)) = none) :
    (s ++ [(k, v)]).find? (fun p => decide (p.1 = k)) = some (k, v) := by
  induction s with
  | nil => simp
  | cons a t ih =>
    by_cases ha : a.1 = k
    · rw [List.find?_cons_of_pos _ (by simp [ha])] at h
      simp at h
    · rw [List.cons_append, List.find?_cons_of_neg _ (by simp [ha])]
      rw [List.find?_cons_of_neg _ (by simp [ha])] at h
      exact ih h

/-- After an upsert of `k ↦ v`, reading `k` gives `v` in every prior state. -/
lemma settingsGet_upsert_self (s : Settings) (k v : String) :
    settingsGet (settingsUpsert s k v) k = some v := by
  unfold settingsUpsert
  by_cases h : (settingsGet s k).isSome
  · rw [if_pos h]
    unfold settingsGet at h ⊢
    rw [find_map_update s k v (by simpa using h)]
    rfl
  · rw [if_neg h]
    have hnone : s.find? (fun p => decide (p.1 = k)) = none := by
      rcases hf : s.find? (fun p => decide (p.1 = k)) with _ | x
      · exact hf
      · exact absurd (by simp [settingsGet, hf]) h
    unfold settingsGet
    rw [find_append_single s k v hnone]
    rfl

/-! ### The claims -/

/-- Claim C1, counterexample.  The claim says events whose label is outside
\x7bgood, slouched\x7d are excluded from the numerator, the denominator and
`total_events`.  With one `good` and one `sitting` event in the daily window,
exclusion would give ratio `1` and total `1`; `aggregate_summary` instead
returns total `2` and ratio `1/2`, because `total = sum(counts.values())`
sums the counts of every label the store returns. -/
theorem aggregate_summary_unknown_label_cex :
    (aggregate_summary "daily" 0 ⟨[⟨0, "good"⟩, ⟨0, "sitting"⟩], []⟩).2 = 2 ∧
    (aggregate_summary "daily" 0 ⟨[⟨0, "good"⟩, ⟨0, "sitting"⟩], []⟩).1 = 1 / 2 ∧
    (1 / 2 : ℚ) ≠ 1 := by
  refine ⟨rfl, rfl, by norm_num⟩

/-- Claim C1, amended.  An event in the window whose label is outside
\x7bgood, slouched\x7d is excluded from the ratio's numerator but included in
its denominator and in `total_events`: appending such an event increments the
returned total by one, and the returned ratio divides the unchanged good-count
by the incremented total. -/
theorem aggregate_summary_unknown_label_included (p : String) (now ts : Int) (l : String)
    (db : DB) (hl : ¬ (l = "good" ∨ l = "slouched")) (hts : sinceOf p now ≤ ts) :
    (aggregate_summary p now { db with events := db.events ++ [⟨ts, l⟩] }).2
        = (aggregate_summary p now db).2 + 1 ∧
    (aggregate_summary p now { db with events := db.events ++ [⟨ts, l⟩] }).1
        = (((windowEvents p now db).filter (fun e => decide (e.label = "good"))).length : ℚ)
            / (((aggregate_summary p now db).2 : ℚ) + 1) := by
  push_neg at hl
  have hwin : windowEvents p now { db with events := db.events ++ [⟨ts, l⟩] }
      = windowEvents p now db ++ [⟨ts, l⟩] := by
    simp [windowEvents, List.filter_append, hts]
  have hgood : (windowEvents p now { db with events := db.events ++ [⟨ts, l⟩] }).filter
        (fun e => decide (e.label = "good"))
      = (windowEvents p now db).filter (fun e => decide (e.label = "good")) := by
    rw [hwin, List.filter_append]
    simp [hl.1]
  have hlen : (windowEvents p now { db with events := db.events ++ [⟨ts, l⟩] }).length
      = (windowEvents p now db).length + 1 := by
    rw [hwin]
    simp
  constructor
  · rw [aggregate_snd, aggregate_snd, hlen]
  · rw [aggregate_summary_eq, aggregate_snd]
    rw [if_neg (by rw [hlen]; exact Nat.succ_ne_zero _)]
    simp only [hgood, hlen]
    push_cast
    ring_nf

/-- Witness for the amended C1: one `sitting` event in the daily window of an
otherwise empty store yields total `0 + 1` and ratio `0 / (0 + 1)`. -/
theorem aggregate_summary_unknown_label_included_witness :
    (aggregate_summary "daily" 0 ⟨[⟨0, "sitting"⟩], []⟩).2
        = (aggregate_summary "daily" 0 ⟨[], []⟩).2 + 1 ∧
    (aggregate_summary "daily" 0 ⟨[⟨0, "sitting"⟩], []⟩).1
        = (((windowEvents "daily" 0 ⟨[], []⟩).filter (fun e => decide (e.label = "good"))).length : ℚ)
            / (((aggregate_summary "daily" 0 ⟨[], []⟩).2 : ℚ) + 1) :=
  aggregate_summary_unknown_label_included "daily" 0 0 "sitting" ⟨[], []⟩ (by decide) (by decide)

/-- Claim C2: for every stored state and time `now`, the daily summary counts
exactly the events with `now - 86400 ≤ ts` (so the boundary timestamp
`now - 86400` is included and `now - 86401` is excluded), and the weekly
summary counts exactly those with `now - 604800 ≤ ts`. -/
theorem aggregate_summary_window_boundary (now : Int) (db : DB) :
    (aggregate_summary "daily" now db).2
        = (db.events.filter (fun e => decide (now - 86400 ≤ e.ts))).length ∧
    (aggregate_summary "weekly" now db).2
        = (db.events.filter (fun e => decide (now - 604800 ≤ e.ts))).length := by
  have hd : sinceOf "daily" now = now - 86400 := by
    rw [sinceOf, if_neg (by decide)]
    norm_num
  have hw : sinceOf "weekly" now = now - 604800 := by
    rw [sinceOf, if_pos rfl]
    norm_num
  constructor
  · rw [aggregate_snd, windowEvents, hd]
  · rw [aggregate_snd, windowEvents, hw]

/-- Claim C3: re-running initialization never changes an existing consent
value — after `init_db` the consent row holds the prior value if one existed
and `"false"` otherwise, and the event table is untouched. -/
theorem init_db_preserves_consent (db : DB) :
    settingsGet (init_db db).settings "consent"
        = some ((settingsGet db.settings "consent").getD "false") ∧
    (init_db db).events = db.events := by
  unfold init_db
  rcases h : settingsGet db.settings "consent" with _ | v
  · have hnone : db.settings.find? (fun p => decide (p.1 = "consent")) = none := by
      rcases hf : db.settings.find? (fun p => decide (p.1 = "consent")) with _ | x
      · exact hf
      · simp [settingsGet, hf] at h
    rw [if_neg (by simp [h])]
    refine ⟨?_, rfl⟩
    simp only [settingsGet, Option.getD_none]
    rw [find_append_single db.settings "consent" "false" hnone]
    rfl
  · rw [if_pos (by simp [h])]
    exact ⟨by rw [h]; rfl, rfl⟩

/-- Claim C4: for every boolean `v` and every prior settings state,
`set_consent v` followed by `get_consent` returns `v` (upsert round-trip). -/
theorem set_consent_get_consent_roundtrip (v : Bool) (db : DB) :
    get_consent (set_consent v db) = v := by
  unfold get_consent set_consent
  simp only [settingsGet_upsert_self]
  cases v <;> simp

/-- Claim C5: with consent stored false, `track` leaves the database unchanged
for every label and reports `stored = false` rather than an error. -/
theorem track_without_consent_stores_nothing (label : String) (now : Int) (db : DB)
    (hc : get_consent db = false) :
    track label now db = (false, db) := by
  simp [track, hc]

/-- Witness for C5: tracking `good` against an empty settings store (consent
reads false) stores nothing. -/
theorem track_without_consent_stores_nothing_witness :
    track "good" 0 ⟨[], []⟩ = (false, ⟨[], []⟩) :=
  track_without_consent_stores_nothing "good" 0 ⟨[], []⟩ rfl

/-- Claim C6: for every consent state, `track` with a label outside
\x7bgood, slouched\x7d leaves the database unchanged and reports
`stored = false`. -/
theorem track_invalid_label_stores_nothing (label : String) (now : Int) (db : DB)
    (h1 : label ≠ "good") (h2 : label ≠ "slouched") :
    track label now db = (false, db) := by
  by_cases hc : get_consent db = false <;> simp [track, hc, h1, h2]

/-- Witness for C6: tracking `sitting` with consent true stores nothing. -/
theorem track_invalid_label_stores_nothing_witness :
    track "sitting" 0 ⟨[], [("consent", "true")]⟩
      = (false, ⟨[], [("consent", "true")]⟩) :=
  track_invalid_label_stores_nothing "sitting" 0 ⟨[], [("consent", "true")]⟩
    (by decide) (by decide)

/-- Claim C7: with consent true and a valid label, `track` appends exactly one
event carrying the current time and the given label, reports `stored = true`,
and leaves the prior events and the settings table unchanged. -/
theorem track_valid_label_with_consent_appends (label : String) (now : Int) (db : DB)
    (hc : get_consent db = true) (hl : label = "good" ∨ label = "slouched") :
    track label now db = (true, { db with events := db.events ++ [⟨now, label⟩] }) := by
  rcases hl with h | h <;> subst h <;> simp [track, store_event_if_allowed, hc]

/-- Witness for C7: tracking `good` at time 5 with consent true appends the
single event `(5, good)`. -/
theorem track_valid_label_with_consent_appends_witness :
    track "good" 5 ⟨[], [("consent", "true")]⟩
      = (true, ⟨[⟨5, "good"⟩], [("consent", "true")]⟩) :=
  track_valid_label_with_consent_appends "good" 5 ⟨[], [("consent", "true")]⟩ rfl (Or.inl rfl)

/-- Claim C8: the summary endpoint returns exactly `(0.0, 0)` whenever consent
is false or the selected window holds no events; the `total == 0` guard makes
the division branch unreachable in that case. -/
theorem summary_zero_on_no_consent_or_empty_window (p : String) (now : Int) (db : DB) :
    (get_consent db = false → summary p now db = (0, 0)) ∧
    (windowEvents p now db = [] → summary p now db = (0, 0)) := by
  constructor
  · intro h
    simp [summary, h]
  · intro h
    by_cases hc : get_consent db = false
    · simp [summary, hc]
    · simp only [summary, hc, if_neg]
      rw [aggregate_summary_eq]
      simp [h]

/-- Witness for C8: a store without consent, and a consented store whose only
event lies far outside every window, both summarize to `(0.0, 0)`. -/
theorem summary_zero_on_no_consent_or_empty_window_witness :
    summary "daily" 0 ⟨[⟨0, "good"⟩], []⟩ = (0, 0) ∧
    summary "daily" 0 ⟨[⟨-100000000, "good"⟩], [("consent", "true")]⟩ = (0, 0) :=
  ⟨(summary_zero_on_no_consent_or_empty_window "daily" 0 ⟨[⟨0, "good"⟩], []⟩).1 rfl,
   (summary_zero_on_no_consent_or_empty_window "daily" 0
      ⟨[⟨-100000000, "good"⟩], [("consent", "true")]⟩).2 (by decide)⟩

/-- Claim C9: when no `consent` row exists, `get_consent` returns false. -/
theorem get_consent_absent_key_false (db : DB)
    (h : settingsGet db.settings "consent" = none) :
    get_consent db = false := by
  unfold get_consent
  rw [h]

/-- Witness for C9: the empty settings store reads consent false. -/
theorem get_consent_absent_key_false_witness : get_consent ⟨[], []⟩ = false :=
  get_consent_absent_key_false ⟨[], []⟩ rfl

/-- Claim C10: every period string other than `weekly` — not only `daily` —
selects the daily window inside `aggregate_summary`; the restriction of
`period` to \x7bdaily, weekly\x7d lives solely in the HTTP-layer query
pattern, under which a non-`weekly` period can only be `daily`. -/
theorem aggregate_summary_defaults_to_daily (p : String) (now : Int) (db : DB)
    (h : p ≠ "weekly") :
    aggregate_summary p now db = aggregate_summary "daily" now db ∧
    (periodPatternOk p = true → p = "daily") := by
  have hs : sinceOf p now = sinceOf "daily" now := by simp [sinceOf, h]
  constructor
  · unfold aggregate_summary windowEvents
    rw [hs]
  · intro hp
    rcases (by simpa [periodPatternOk] using hp : p = "daily" ∨ p = "weekly") with h' | h'
    · exact h'
    · exact absurd h' h

/-- Witness for C10: the out-of-vocabulary period `monthly` aggregates exactly
like `daily`, and the HTTP pattern rejects it. -/
theorem aggregate_summary_defaults_to_daily_witness :
    aggregate_summary "monthly" 0 ⟨[⟨0, "good"⟩], []⟩
        = aggregate_summary "daily" 0 ⟨[⟨0, "good"⟩], []⟩ ∧
    (periodPatternOk "monthly" = true → "monthly" = "daily") :=
  aggregate_summary_defaults_to_daily "monthly" 0 ⟨[⟨0, "good"⟩], []⟩ (by decide)
